import Mathlib

/-!
Verification development for the Kodrapay fraud-service core: the rule-based
decision engine (`RuleBasedFraudDetector.CheckTransaction`), the default rule
catalog (`DefaultRules`), the in-memory fraud data repository, and the
payment-link validator (`FraudService.ValidatePaymentLink`).

Modelling conventions:
- Go `float64` values are modelled as `Rat`; every constant appearing in the
  source (50, 70, 100, 1000, ...) is exactly representable, and the only
  arithmetic performed is addition and comparison of such constants.
- Go `map[string]interface{}` event data is modelled as an association list
  of dynamic `GoVal` values; a Go type assertion `v.(T)` that fails (missing
  key or wrong dynamic type) is `none`.
- Go `(T, error)` returns are modelled as `Except String T`; functions whose
  every return statement carries a `nil` error are modelled as pairs with an
  `Option String` error component that is literally `none` on every path,
  mirroring the source.
- Go `time.Time`/`time.Duration` are modelled as `Int` nanoseconds; the
  use of `time.Now()` by the in-memory repository is an explicit `now` parameter.
- External collaborators (the HTTP transaction authority behind
  `GetTransactionDetailsByReference`, and the Go `net/url` parser) are modelled
  by their outcome types (`AuthorityResponse`, `URLParseOutcome`), passed in
  as explicit parameters.
-/

/-- A dynamic Go `interface{}` value as stored in event-data maps. -/
inductive GoVal where
  | vStr (s : String)
  | vNum (q : Rat)
  | vBool (b : Bool)
deriving DecidableEq, Repr

/-- Go `map[string]interface{}`, as an association list (keys unique in practice). -/
abbrev EventData := List (String × GoVal)

/-- First-match association-list lookup (Go map indexing). -/
def lookupList {α : Type} : List (String × α) → String → Option α
  | [], _ => none
  | (k, v) :: rest, key => if k = key then some v else lookupList rest key

/-- Go type assertion `data[k].(string)`: `none` when the key is missing or the value is not a string. -/
def EventData.getStr (d : EventData) (k : String) : Option String :=
  match lookupList d k with
  | some (GoVal.vStr s) => some s
  | _ => none

/-- Go type assertion `data[k].(float64)`: `none` when the key is missing or the value is not a float64. -/
def EventData.getNum (d : EventData) (k : String) : Option Rat :=
  match lookupList d k with
  | some (GoVal.vNum q) => some q
  | _ => none

/-- Go struct `repository.TransactionRecord` (timestamp in nanoseconds since epoch). -/
structure TransactionRecord where
  ID : String
  Amount : Rat
  Currency : String
  Timestamp : Int
deriving DecidableEq, Repr

/-- The `repository.FraudDataRepository` interface: each method may fail
(`.error`), modelling a backend/storage failure. `GetTransactionHistory`
takes the customer id and the lookback duration in nanoseconds. `GetIPData`
and `GetDeviceData` return `none` for a Go `nil` map. -/
structure FraudDataRepository where
  GetTransactionHistory : String → Int → Except String (List TransactionRecord)
  GetIPData : String → Except String (Option EventData)
  GetDeviceData : String → Except String (Option EventData)

/-- Go struct `fraud.FraudRule`: the predicate returns `(bool, error)`. -/
structure FraudRule where
  ID : String
  Description : String
  Threshold : Rat
  ScoreImpact : Rat
  Decision : String
  Enabled : Bool
  Predicate : EventData → Except String Bool

/-- Go struct `fraud.FraudDecision`. -/
structure FraudDecision where
  OverallScore : Rat
  Decision : String
  Reasons : List String
deriving DecidableEq, Repr

/-- Go struct `RuleBasedFraudDetector`: a repository plus a rule catalog. -/
structure RuleBasedFraudDetector where
  repo : FraudDataRepository
  rules : List FraudRule

/-- The predicate of the `HIGH_AMOUNT_TRANSACTION` default rule. -/
def highAmountPredicate (transactionData : EventData) : Except String Bool :=
  match transactionData.getNum "amount" with
  | some amount => Except.ok (decide (amount > 1000))
  | none => Except.ok false

/-- The predicate of the `SUSPICIOUS_IP_ORIGIN` default rule (the engine
special-cases this rule by id, so this predicate is present but unused). -/
def suspiciousIpPredicate (transactionData : EventData) : Except String Bool :=
  match transactionData.getStr "origin" with
  | some origin => Except.ok (origin == "suspicious_ip")
  | none => Except.ok false

/-- The predicate of the `HIGH_VELOCITY_CUSTOMER` default rule: a placeholder
that never triggers (the engine special-cases this rule by id). -/
def highVelocityPredicate (_ : EventData) : Except String Bool :=
  Except.ok false

/-- First entry of `fraud.DefaultRules()`. -/
def highAmountRule : FraudRule :=
  { ID := "HIGH_AMOUNT_TRANSACTION"
    Description := "Flags transactions with amounts exceeding a high threshold."
    Threshold := 1000
    ScoreImpact := 50
    Decision := "flag"
    Enabled := true
    Predicate := highAmountPredicate }

/-- Second entry of `fraud.DefaultRules()`. -/
def suspiciousIpRule : FraudRule :=
  { ID := "SUSPICIOUS_IP_ORIGIN"
    Description := "Flags transactions originating from suspicious IP addresses."
    Threshold := 1
    ScoreImpact := 70
    Decision := "flag"
    Enabled := true
    Predicate := suspiciousIpPredicate }

/-- Third entry of `fraud.DefaultRules()`. -/
def highVelocityRule : FraudRule :=
  { ID := "HIGH_VELOCITY_CUSTOMER"
    Description := "Flags customers with unusually high transaction velocity."
    Threshold := 5
    ScoreImpact := 60
    Decision := "flag"
    Enabled := true
    Predicate := highVelocityPredicate }

/-- The catalog `fraud.DefaultRules()`. -/
def DefaultRules : List FraudRule :=
  [highAmountRule, suspiciousIpRule, highVelocityRule]

/-- The constructor `fraud.NewRuleBasedFraudDetector`: an empty rule list is replaced by the
default catalog. -/
def NewRuleBasedFraudDetector (repo : FraudDataRepository) (rules : List FraudRule) :
    RuleBasedFraudDetector :=
  if rules.length = 0 then { repo := repo, rules := DefaultRules }
  else { repo := repo, rules := rules }

/-- The duration `24 * time.Hour` in nanoseconds, the lookback passed to
`GetTransactionHistory` by `CheckTransaction`. -/
def hours24 : Int := 24 * 60 * 60 * 1000000000

/-- The Go check `ipData != nil && ipData["is_vpn"] == true`. -/
def ipIsVpn (ipData : Option EventData) : Bool :=
  match ipData with
  | none => false
  | some m => lookupList m "is_vpn" == some (GoVal.vBool true)

/-- Triggered/error outcome of one iteration for a rule inside
`CheckTransaction`: the `switch rule.ID` over the repository-backed special
cases, falling through to the own predicate of the rule. A failed type assertion
on `customer_id`/`origin` leaves `isTriggered` at its zero value `false`. -/
def evalRuleTriggered (repo : FraudDataRepository) (rule : FraudRule) (transactionData : EventData) :
    Except String Bool :=
  if rule.ID = "HIGH_VELOCITY_CUSTOMER" then
    match transactionData.getStr "customer_id" with
    | some customerID =>
      match repo.GetTransactionHistory customerID hours24 with
      | Except.error repoErr =>
          Except.error ("failed to get transaction history for rule " ++ rule.ID ++ ": " ++ repoErr)
      | Except.ok history => Except.ok (decide ((history.length : Rat) > rule.Threshold))
    | none => Except.ok false
  else if rule.ID = "SUSPICIOUS_IP_ORIGIN" then
    match transactionData.getStr "origin" with
    | some origin =>
      match repo.GetIPData origin with
      | Except.error repoErr =>
          Except.error ("failed to get IP data for rule " ++ rule.ID ++ ": " ++ repoErr)
      | Except.ok ipData => Except.ok (ipIsVpn ipData || origin == "suspicious_ip")
    | none => Except.ok false
  else
    match rule.Predicate transactionData with
    | Except.error e => Except.error ("error evaluating rule " ++ rule.ID ++ ": " ++ e)
    | Except.ok b => Except.ok b

/-- Outcome of the rule loop of `CheckTransaction`: an aborting rule error, a
`break` after a deny rule, or normal completion. -/
inductive LoopOut where
  | errored (e : String)
  | broke (dec : String) (reasons : List String) (score : Rat)
  | done (dec : String) (reasons : List String) (score : Rat)
deriving DecidableEq

/-- The `for _, rule := range d.rules` loop of `CheckTransaction`, carrying
the running decision string, reasons, and total score. -/
def checkLoop (repo : FraudDataRepository) (transactionData : EventData) :
    List FraudRule → String → List String → Rat → LoopOut
  | [], dec, reasons, score => LoopOut.done dec reasons score
  | rule :: rest, dec, reasons, score =>
    if rule.Enabled = false then checkLoop repo transactionData rest dec reasons score
    else
      match evalRuleTriggered repo rule transactionData with
      | Except.error e => LoopOut.errored e
      | Except.ok isTriggered =>
        if isTriggered then
          if rule.Decision = "deny" then
            LoopOut.broke "deny" (reasons ++ [rule.Description]) (score + rule.ScoreImpact)
          else if rule.Decision = "flag" ∧ dec ≠ "deny" then
            checkLoop repo transactionData rest "flag" (reasons ++ [rule.Description])
              (score + rule.ScoreImpact)
          else
            checkLoop repo transactionData rest dec (reasons ++ [rule.Description])
              (score + rule.ScoreImpact)
        else checkLoop repo transactionData rest dec reasons score

/-- The method `RuleBasedFraudDetector.CheckTransaction`: returns the Go pair
`(FraudDecision, error)`; on a rule error the decision is the zero value
`FraudDecision{}`. After the loop, score thresholds override the decision
when it is not already deny. -/
def RuleBasedFraudDetector.CheckTransaction (d : RuleBasedFraudDetector)
    (transactionData : EventData) : FraudDecision × Option String :=
  match checkLoop d.repo transactionData d.rules "approve" [] 0 with
  | LoopOut.errored e => (⟨0, "", []⟩, some e)
  | LoopOut.broke dec reasons score | LoopOut.done dec reasons score =>
    let finalDec :=
      if dec ≠ "deny" then
        if (100 : Rat) ≤ score then "deny"
        else if (50 : Rat) ≤ score then "flag"
        else dec
      else dec
    (⟨score, finalDec, reasons⟩, none)

/-- Go struct `repository.InMemoryFraudDataRepository`: three in-memory association maps. -/
structure InMemoryFraudDataRepository where
  transactions : List (String × List TransactionRecord)
  ipData : List (String × EventData)
  deviceData : List (String × EventData)

/-- The method `InMemoryFraudDataRepository.GetTransactionHistory` with the implicit
`time.Now()` made explicit: keeps records with `Timestamp.After(now - lookback)`;
an unknown customer yields the empty list, and no path returns an error. -/
def InMemoryFraudDataRepository.GetTransactionHistory (r : InMemoryFraudDataRepository)
    (now : Int) (customerID : String) (lookback : Int) : Except String (List TransactionRecord) :=
  match lookupList r.transactions customerID with
  | some txns => Except.ok (txns.filter (fun txn => decide (now - lookback < txn.Timestamp)))
  | none => Except.ok []

/-- The method `InMemoryFraudDataRepository.GetIPData`: Go returns `(nil, nil)` for an
unknown address. -/
def InMemoryFraudDataRepository.GetIPData (r : InMemoryFraudDataRepository)
    (ipAddress : String) : Except String (Option EventData) :=
  match lookupList r.ipData ipAddress with
  | some data => Except.ok (some data)
  | none => Except.ok none

/-- The method `InMemoryFraudDataRepository.GetDeviceData`. -/
def InMemoryFraudDataRepository.GetDeviceData (r : InMemoryFraudDataRepository)
    (deviceID : String) : Except String (Option EventData) :=
  match lookupList r.deviceData deviceID with
  | some data => Except.ok (some data)
  | none => Except.ok none

/-- Package an in-memory repository (at a fixed wall-clock instant `now`) as a
`FraudDataRepository`. -/
def InMemoryFraudDataRepository.toRepo (r : InMemoryFraudDataRepository) (now : Int) :
    FraudDataRepository :=
  { GetTransactionHistory := fun customerID lookback => r.GetTransactionHistory now customerID lookback
    GetIPData := fun ipAddress => r.GetIPData ipAddress
    GetDeviceData := fun deviceID => r.GetDeviceData deviceID }

/-- The constructor `NewInMemoryFraudDataRepository()`: all three maps empty. -/
def NewInMemoryFraudDataRepository : InMemoryFraudDataRepository :=
  { transactions := [], ipData := [], deviceData := [] }

/-- Go struct `services.TransactionResponse`: the DTO of the transaction authority (amount in
the smallest currency unit, an `int64`). -/
structure TransactionResponse where
  ID : Int
  Reference : String
  MerchantID : Int
  CustomerEmail : String
  CustomerID : Int
  Amount : Int
  Currency : String
  Status : String
deriving DecidableEq, Repr

/-- Outcome of the HTTP `GET {transactionServiceURL}/transactions/{reference}`
performed by `GetTransactionDetailsByReference`, modelling the external
transaction authority plus the transport. -/
inductive AuthorityResponse where
  | requestCreationError (msg : String)
  | transportError (msg : String)
  | notFound
  | httpStatus (code : Nat) (body : String)
  | decodeError (msg : String)
  | success (tx : TransactionResponse)

/-- The method `FraudService.GetTransactionDetailsByReference`: maps each authority
outcome to the Go `(tx, err)` pair, with the exact error strings built by the
`fmt.Errorf` calls in the source. -/
def GetTransactionDetailsByReference (authority : String → AuthorityResponse)
    (transactionServiceURL : String) (reference : String) : Except String TransactionResponse :=
  if transactionServiceURL = "" then
    Except.error "transaction service URL not configured"
  else
    match authority reference with
    | AuthorityResponse.requestCreationError msg =>
        Except.error ("failed to create request to transaction service: " ++ msg)
    | AuthorityResponse.transportError msg =>
        Except.error ("failed to get transaction from transaction service: " ++ msg)
    | AuthorityResponse.notFound =>
        Except.error ("transaction with reference " ++ reference ++ " not found")
    | AuthorityResponse.httpStatus code body =>
        Except.error ("transaction service returned status " ++ toString code ++ ": " ++ body)
    | AuthorityResponse.decodeError msg =>
        Except.error ("failed to decode transaction response from transaction service: " ++ msg)
    | AuthorityResponse.success tx => Except.ok tx

/-- Go `strings.Contains`: does `pat` occur in `s`? (For non-empty `pat`,
`splitOn` yields more than one piece exactly when `pat` occurs.) -/
def strContains (s pat : String) : Bool :=
  (s.splitOn pat).length ≠ 1

/-- One decimal digit of a Go integer literal. -/
def goDigit (c : Char) : Bool :=
  '0' ≤ c ∧ c ≤ '9'

/-- Go `strconv.ParseInt(s, 10, 64)` (and `strconv.Atoi` on a 64-bit
platform): optional sign, one or more decimal digits, result within the
`int64` range; `none` models a non-nil error. -/
def parseGoInt64 (s : String) : Option Int :=
  let withSign : Int × List Char :=
    match s.toList with
    | '+' :: rest => (1, rest)
    | '-' :: rest => (-1, rest)
    | rest => (1, rest)
  if withSign.2.isEmpty then none
  else if withSign.2.all goDigit then
    let magnitude : Nat := withSign.2.foldl (fun acc c => acc * 10 + (c.toNat - 48)) 0
    let value : Int := withSign.1 * magnitude
    if -(2 ^ 63) ≤ value ∧ value ≤ 2 ^ 63 - 1 then some value else none
  else none

/-- Go `url.Values.Get(key)`: the first value for `key`, or `""` when absent. -/
def queryGet (query : List (String × String)) (key : String) : String :=
  match lookupList query key with
  | some v => v
  | none => ""

/-- Outcome of Go `url.Parse(linkUrl)` followed by `.Query()`: either a
parse error, or the decoded query key/value pairs. `net/url` is a stdlib
collaborator; we model its outcome. -/
inductive URLParseOutcome where
  | parseError
  | parsed (query : List (String × String))

/-- Go struct `services.FraudService`: the detector plus the configured transaction
service base URL. -/
structure FraudService where
  detector : RuleBasedFraudDetector
  transactionServiceURL : String

/-- The method `FraudService.ValidatePaymentLink`: returns the Go triple
`(isSuspicious, reason, error)`; every return statement in the source carries
a `nil` error, so the third component is literally `none` on every path.
`authority` models the external transaction authority contacted through
`GetTransactionDetailsByReference`; `parsedLink` is the outcome of
`url.Parse` on the link URL given by the caller. -/
def FraudService.ValidatePaymentLink (s : FraudService)
    (authority : String → AuthorityResponse) (parsedLink : URLParseOutcome) :
    Bool × String × Option String :=
  match parsedLink with
  | URLParseOutcome.parseError => (true, "Invalid payment link URL format", none)
  | URLParseOutcome.parsed queryParams =>
    let ref := queryGet queryParams "ref"
    let merchantIDStr := queryGet queryParams "merchant_id"
    let amountStr := queryGet queryParams "amount"
    let currency := queryGet queryParams "currency"
    if ref = "" ∨ merchantIDStr = "" ∨ amountStr = "" ∨ currency = "" then
      (true, "Missing required parameters in payment link (ref, merchant_id, amount, currency)", none)
    else
      match parseGoInt64 merchantIDStr with
      | none => (true, "Invalid merchant_id format in payment link", none)
      | some merchantID =>
        match parseGoInt64 amountStr with
        | none => (true, "Invalid amount format in payment link", none)
        | some amount =>
          match GetTransactionDetailsByReference authority s.transactionServiceURL ref with
          | Except.error e =>
            if strContains e "not found" then
              (true, "Transaction reference " ++ ref ++ " not found for payment link", none)
            else
              (true, "Error fetching original transaction details: " ++ e, none)
          | Except.ok originalTx =>
            if originalTx.MerchantID ≠ merchantID then
              (true, "Merchant ID mismatch: link has " ++ toString merchantID ++
                ", original has " ++ toString originalTx.MerchantID, none)
            else if originalTx.Amount ≠ amount then
              (true, "Amount mismatch: link has " ++ toString amount ++
                ", original has " ++ toString originalTx.Amount, none)
            else if originalTx.Currency ≠ currency then
              (true, "Currency mismatch: link has " ++ currency ++
                ", original has " ++ originalTx.Currency, none)
            else
              (false, "Payment link is legitimate", none)

/-- Go struct `dto.RiskEvaluateRequest`. -/
structure RiskEvaluateRequest where
  TransactionReference : String
  Amount : Rat
  Currency : String
  CustomerID : String
  MerchantID : String
deriving DecidableEq, Repr

/-- Go struct `dto.RiskEvaluateResponse`. -/
structure RiskEvaluateResponse where
  Score : Rat
  Decision : String
deriving DecidableEq, Repr

/-- The method `FraudService.Evaluate`: the `/risk/evaluate` service method behind the handler.
The receiver and request are bound but unused in the source. -/
def FraudService.Evaluate (_ : FraudService) (_ : RiskEvaluateRequest) : RiskEvaluateResponse :=
  { Score := 1 / 10, Decision := "approve" }

/-- Splitting the rule loop at a list append: the tail is evaluated only when
the front neither errors nor breaks. -/
theorem checkLoop_append (repo : FraudDataRepository) (data : EventData)
    (l1 l2 : List FraudRule) (dec : String) (rs : List String) (s : Rat) :
    checkLoop repo data (l1 ++ l2) dec rs s =
      match checkLoop repo data l1 dec rs s with
      | LoopOut.errored e => LoopOut.errored e
      | LoopOut.broke d r sc => LoopOut.broke d r sc
      | LoopOut.done d r sc => checkLoop repo data l2 d r sc := by
  induction l1 generalizing dec rs s with
  | nil => simp [checkLoop]
  | cons rule rest ih =>
    simp only [List.cons_append, checkLoop]
    split
    · exact ih dec rs s
    · split
      · rfl
      · split
        · split
          · rfl
          · split
            · exact ih "flag" (rs ++ [rule.Description]) (s + rule.ScoreImpact)
            · exact ih dec (rs ++ [rule.Description]) (s + rule.ScoreImpact)
        · exact ih dec rs s

/-- The loop only `break`s with decision `"deny"`. -/
theorem checkLoop_broke_deny (repo : FraudDataRepository) (data : EventData)
    (l : List FraudRule) (dec : String) (rs : List String) (s : Rat)
    (d : String) (r : List String) (sc : Rat)
    (h : checkLoop repo data l dec rs s = LoopOut.broke d r sc) : d = "deny" := by
  induction l generalizing dec rs s with
  | nil => simp [checkLoop] at h
  | cons rule rest ih =>
    simp only [checkLoop] at h
    split at h
    · exact ih dec rs s h
    · split at h
      · cases h
      · split at h
        · split at h
          · cases h; rfl
          · split at h
            · exact ih "flag" (rs ++ [rule.Description]) (s + rule.ScoreImpact) h
            · exact ih dec (rs ++ [rule.Description]) (s + rule.ScoreImpact) h
        · exact ih dec rs s h

/-- On normal completion, the decision is either the starting decision or
`"flag"` (the loop never sets `"deny"` without breaking). -/
theorem checkLoop_done_cases (repo : FraudDataRepository) (data : EventData)
    (l : List FraudRule) (dec : String) (rs : List String) (s : Rat)
    (d : String) (r : List String) (sc : Rat)
    (h : checkLoop repo data l dec rs s = LoopOut.done d r sc) : d = dec ∨ d = "flag" := by
  induction l generalizing dec rs s with
  | nil =>
    simp only [checkLoop] at h
    cases h
    exact Or.inl rfl
  | cons rule rest ih =>
    simp only [checkLoop] at h
    split at h
    · exact ih dec rs s h
    · split at h
      · cases h
      · split at h
        · split at h
          · cases h
          · split at h
            · exact Or.inr ((ih "flag" (rs ++ [rule.Description]) (s + rule.ScoreImpact) h).elim id id)
            · exact ih dec (rs ++ [rule.Description]) (s + rule.ScoreImpact) h
        · exact ih dec rs s h

/-- If no rule of the catalog produces an evaluation error on this event, the
loop does not abort. -/
theorem checkLoop_no_error (repo : FraudDataRepository) (data : EventData)
    (l : List FraudRule)
    (h : ∀ rule ∈ l, ∀ e, evalRuleTriggered repo rule data ≠ Except.error e) :
    ∀ dec rs s e, checkLoop repo data l dec rs s ≠ LoopOut.errored e := by
  induction l with
  | nil =>
    intro dec rs s e hc
    simp [checkLoop] at hc
  | cons rule rest ih =>
    intro dec rs s e hc
    have hrest : ∀ r ∈ rest, ∀ e, evalRuleTriggered repo r data ≠ Except.error e :=
      fun r hr => h r (List.mem_cons_of_mem rule hr)
    simp only [checkLoop] at hc
    split at hc
    · exact ih hrest dec rs s e hc
    · split at hc
      · next e' heq => exact h rule (List.mem_cons_self rule rest) e' heq
      · split at hc
        · split at hc
          · cases hc
          · split at hc
            · exact ih hrest "flag" (rs ++ [rule.Description]) (s + rule.ScoreImpact) e hc
            · exact ih hrest dec (rs ++ [rule.Description]) (s + rule.ScoreImpact) e hc
        · exact ih hrest dec rs s e hc

/-- The engine evaluates `HIGH_AMOUNT_TRANSACTION` through the default switch
branch, i.e. through its own predicate. -/
theorem evalRuleTriggered_highAmount (repo : FraudDataRepository) (data : EventData) :
    evalRuleTriggered repo highAmountRule data = highAmountPredicate data := by
  simp only [evalRuleTriggered, highAmountRule]
  rw [if_neg (by decide), if_neg (by decide)]
  simp only [highAmountPredicate]
  cases data.getNum "amount" <;> simp

/-- The engine evaluates `SUSPICIOUS_IP_ORIGIN` through its repository-backed
special case. -/
theorem evalRuleTriggered_suspiciousIp (repo : FraudDataRepository) (data : EventData) :
    evalRuleTriggered repo suspiciousIpRule data =
      match data.getStr "origin" with
      | some origin =>
        match repo.GetIPData origin with
        | Except.error repoErr =>
            Except.error ("failed to get IP data for rule SUSPICIOUS_IP_ORIGIN: " ++ repoErr)
        | Except.ok ipData => Except.ok (ipIsVpn ipData || origin == "suspicious_ip")
      | none => Except.ok false := by
  simp only [evalRuleTriggered, suspiciousIpRule]
  rw [if_neg (by decide), if_pos (by decide)]
  simp

/-- The engine evaluates `HIGH_VELOCITY_CUSTOMER` through its repository-backed
special case. -/
theorem evalRuleTriggered_highVelocity (repo : FraudDataRepository) (data : EventData) :
    evalRuleTriggered repo highVelocityRule data =
      match data.getStr "customer_id" with
      | some customerID =>
        match repo.GetTransactionHistory customerID hours24 with
        | Except.error repoErr =>
            Except.error ("failed to get transaction history for rule HIGH_VELOCITY_CUSTOMER: " ++ repoErr)
        | Except.ok history => Except.ok (decide ((history.length : Rat) > 5))
      | none => Except.ok false := by
  simp only [evalRuleTriggered, highVelocityRule]
  rw [if_pos (by decide)]
  simp

/-- A triggered enabled deny rule at the head of the remaining catalog breaks
immediately with decision `"deny"`. -/
theorem checkLoop_deny_head (repo : FraudDataRepository) (data : EventData)
    (r : FraudRule) (post : List FraudRule) (dec : String) (rs : List String) (s : Rat)
    (hen : r.Enabled = true) (hdec : r.Decision = "deny")
    (htrig : evalRuleTriggered repo r data = Except.ok true) :
    checkLoop repo data (r :: post) dec rs s =
      LoopOut.broke "deny" (rs ++ [r.Description]) (s + r.ScoreImpact) := by
  simp only [checkLoop, hen, htrig, hdec]
  simp

section
attribute [local semireducible] Rat.add

/-- Claim C1: for every rule catalog and event data map, if during
`CheckTransaction` an enabled rule with decision hint `"deny"` triggers, the
returned decision is `"deny"` and evaluation stops at that rule: the result is
identical to running the catalog truncated right after the denying rule, so
rules after it contribute nothing to the overall score or the reasons list. -/
theorem checkTransaction_deny_short_circuit
    (repo : FraudDataRepository) (data : EventData) (pre post : List FraudRule) (r : FraudRule)
    (hen : r.Enabled = true) (hdec : r.Decision = "deny")
    (htrig : evalRuleTriggered repo r data = Except.ok true) :
    RuleBasedFraudDetector.CheckTransaction ⟨repo, pre ++ r :: post⟩ data
      = RuleBasedFraudDetector.CheckTransaction ⟨repo, pre ++ [r]⟩ data
    ∧ ∀ res, RuleBasedFraudDetector.CheckTransaction ⟨repo, pre ++ r :: post⟩ data = (res, none) →
        res.Decision = "deny" := by
  have hhead : ∀ dec rs s, checkLoop repo data (r :: post) dec rs s =
      LoopOut.broke "deny" (rs ++ [r.Description]) (s + r.ScoreImpact) :=
    fun dec rs s => checkLoop_deny_head repo data r post dec rs s hen hdec htrig
  have hhead1 : ∀ dec rs s, checkLoop repo data [r] dec rs s =
      LoopOut.broke "deny" (rs ++ [r.Description]) (s + r.ScoreImpact) :=
    fun dec rs s => checkLoop_deny_head repo data r [] dec rs s hen hdec htrig
  have hfull : checkLoop repo data (pre ++ r :: post) "approve" [] 0 =
      checkLoop repo data (pre ++ [r]) "approve" [] 0 := by
    rw [checkLoop_append, checkLoop_append]
    cases hL : checkLoop repo data pre "approve" [] 0 with
    | errored e => rfl
    | broke d rr sc => rfl
    | done d rr sc =>
      show checkLoop repo data (r :: post) d rr sc = checkLoop repo data [r] d rr sc
      rw [hhead d rr sc, hhead1 d rr sc]
  constructor
  · simp only [RuleBasedFraudDetector.CheckTransaction]
    rw [hfull]
  · intro res hres
    cases hFull : checkLoop repo data (pre ++ r :: post) "approve" [] 0 with
    | errored e =>
      simp only [RuleBasedFraudDetector.CheckTransaction, hFull, Prod.mk.injEq] at hres
      exact absurd hres.2 (by simp)
    | broke d rr sc =>
      have hd : d = "deny" :=
        checkLoop_broke_deny repo data (pre ++ r :: post) "approve" [] 0 d rr sc hFull
      subst hd
      simp only [RuleBasedFraudDetector.CheckTransaction, hFull, ne_eq, not_true_eq_false,
        if_false, ite_false, Prod.mk.injEq] at hres
      rw [← hres.1]
    | done d rr sc =>
      exfalso
      rw [checkLoop_append] at hFull
      cases hL : checkLoop repo data pre "approve" [] 0 with
      | errored e =>
        simp only [hL] at hFull
        exact LoopOut.noConfusion hFull
      | broke d2 rr2 sc2 =>
        simp only [hL] at hFull
        exact LoopOut.noConfusion hFull
      | done d2 rr2 sc2 =>
        simp only [hL, hhead d2 rr2 sc2] at hFull
        exact LoopOut.noConfusion hFull

/-- A deny-hinted, always-triggering rule, used to exercise the early-exit
path of the engine on a concrete catalog. -/
def blocklistRule : FraudRule :=
  { ID := "BLOCKLIST"
    Description := "Blocks transactions from blocklisted parties."
    Threshold := 0
    ScoreImpact := 10
    Decision := "deny"
    Enabled := true
    Predicate := fun _ => Except.ok true }

/-- Witness for C1 at a concrete catalog and event. -/
theorem checkTransaction_deny_short_circuit_witness :
    RuleBasedFraudDetector.CheckTransaction
        ⟨NewInMemoryFraudDataRepository.toRepo 0, [highAmountRule, blocklistRule, suspiciousIpRule]⟩
        [("amount", GoVal.vNum 1500)]
      = RuleBasedFraudDetector.CheckTransaction
          ⟨NewInMemoryFraudDataRepository.toRepo 0, [highAmountRule, blocklistRule]⟩
          [("amount", GoVal.vNum 1500)]
    ∧ (RuleBasedFraudDetector.CheckTransaction
        ⟨NewInMemoryFraudDataRepository.toRepo 0, [highAmountRule, blocklistRule, suspiciousIpRule]⟩
        [("amount", GoVal.vNum 1500)]).1.Decision = "deny" := by
  have h := checkTransaction_deny_short_circuit (NewInMemoryFraudDataRepository.toRepo 0)
    [("amount", GoVal.vNum 1500)] [highAmountRule] [suspiciousIpRule] blocklistRule
    rfl rfl rfl
  have hval : RuleBasedFraudDetector.CheckTransaction
      ⟨NewInMemoryFraudDataRepository.toRepo 0, [highAmountRule, blocklistRule, suspiciousIpRule]⟩
      [("amount", GoVal.vNum 1500)]
      = (⟨60, "deny", [highAmountRule.Description, blocklistRule.Description]⟩, none) := by decide
  exact ⟨h.1, h.2 ⟨60, "deny", [highAmountRule.Description, blocklistRule.Description]⟩ hval ▸ by rw [hval]⟩

/-- Claim C2: when the rule loop completes without an early deny, the final
decision is forced to `"deny"` when the accumulated score reaches 100, else to
`"flag"` when it reaches 50, and otherwise stays whatever the rule hints
produced, which is always `"approve"` or `"flag"`; the score and reasons are
exactly those accumulated by the loop. -/
theorem checkTransaction_score_thresholds
    (repo : FraudDataRepository) (rules : List FraudRule) (data : EventData)
    (dec : String) (rs : List String) (sc : Rat)
    (h : checkLoop repo data rules "approve" [] 0 = LoopOut.done dec rs sc) :
    RuleBasedFraudDetector.CheckTransaction ⟨repo, rules⟩ data
      = (⟨sc, if (100 : Rat) ≤ sc then "deny" else if (50 : Rat) ≤ sc then "flag" else dec, rs⟩,
         none)
    ∧ (dec = "approve" ∨ dec = "flag") := by
  have hcases := checkLoop_done_cases repo data rules "approve" [] 0 dec rs sc h
  have hne : ¬(dec = "deny") := by
    rcases hcases with h1 | h1 <;> subst h1 <;> simp
  constructor
  · simp only [RuleBasedFraudDetector.CheckTransaction, h]
    rw [if_pos hne]
  · exact hcases

/-- Witness for C2: with the default catalog and a high-amount event, the loop
completes at score 50 with hint decision `"flag"`, and the medium-risk
threshold keeps the decision `"flag"`. -/
theorem checkTransaction_score_thresholds_witness :
    checkLoop (NewInMemoryFraudDataRepository.toRepo 0) [("amount", GoVal.vNum 1500)]
        DefaultRules "approve" [] 0
      = LoopOut.done "flag" [highAmountRule.Description] 50
    ∧ RuleBasedFraudDetector.CheckTransaction
        ⟨NewInMemoryFraudDataRepository.toRepo 0, DefaultRules⟩ [("amount", GoVal.vNum 1500)]
      = (⟨50, "flag", [highAmountRule.Description]⟩, none) := by
  have hloop : checkLoop (NewInMemoryFraudDataRepository.toRepo 0) [("amount", GoVal.vNum 1500)]
      DefaultRules "approve" [] 0
      = LoopOut.done "flag" [highAmountRule.Description] 50 := by decide
  have h := checkTransaction_score_thresholds (NewInMemoryFraudDataRepository.toRepo 0)
    DefaultRules [("amount", GoVal.vNum 1500)] "flag" [highAmountRule.Description] 50 hloop
  refine ⟨hloop, ?_⟩
  rw [h.1]
  decide

/-- Claim C8: with the default catalog and an empty data provider (no records
for customer `"c1"`, no IP record for `"suspicious_ip"`, at any wall-clock
instant), the scenario event triggers `HIGH_AMOUNT_TRANSACTION` (50) and
`SUSPICIOUS_IP_ORIGIN` (70); score 120 forces decision `"deny"`, and the
reasons list holds both rule descriptions in catalog order. -/
theorem checkTransaction_default_scenario (now : Int) :
    RuleBasedFraudDetector.CheckTransaction
        ⟨NewInMemoryFraudDataRepository.toRepo now, DefaultRules⟩
        [("customer_id", GoVal.vStr "c1"), ("amount", GoVal.vNum 1500),
         ("currency", GoVal.vStr "NGN"), ("origin", GoVal.vStr "suspicious_ip")]
      = (⟨120, "deny", [highAmountRule.Description, suspiciousIpRule.Description]⟩, none) := by
  rfl

/-- Claim C10: the public constructor substitutes the default catalog for an
empty rule list (so its detectors never carry an empty catalog, which would
approve every event), and keeps a non-empty rule list exactly as given. -/
theorem newRuleBasedFraudDetector_default_fallback
    (repo : FraudDataRepository) (rules : List FraudRule) :
    (NewRuleBasedFraudDetector repo rules).rules ≠ []
    ∧ (rules = [] → NewRuleBasedFraudDetector repo rules = ⟨repo, DefaultRules⟩)
    ∧ (rules ≠ [] → NewRuleBasedFraudDetector repo rules = ⟨repo, rules⟩)
    ∧ (∀ data, RuleBasedFraudDetector.CheckTransaction ⟨repo, []⟩ data
        = (⟨0, "approve", []⟩, none)) := by
  refine ⟨?_, ?_, ?_, ?_⟩
  · by_cases h : rules = []
    · subst h
      simp [NewRuleBasedFraudDetector, DefaultRules]
    · simp [NewRuleBasedFraudDetector, List.length_eq_zero, h]
  · intro h
    subst h
    simp [NewRuleBasedFraudDetector]
  · intro h
    simp [NewRuleBasedFraudDetector, List.length_eq_zero, h]
  · intro data
    rfl

/-- Witness for C10: the constructor at an empty and at a singleton catalog. -/
theorem newRuleBasedFraudDetector_default_fallback_witness :
    (NewRuleBasedFraudDetector (NewInMemoryFraudDataRepository.toRepo 0) []).rules = DefaultRules
    ∧ (NewRuleBasedFraudDetector (NewInMemoryFraudDataRepository.toRepo 0)
        [highAmountRule]).rules = [highAmountRule]
    ∧ RuleBasedFraudDetector.CheckTransaction ⟨NewInMemoryFraudDataRepository.toRepo 0, []⟩ []
        = (⟨0, "approve", []⟩, none) := by
  have h0 := newRuleBasedFraudDetector_default_fallback (NewInMemoryFraudDataRepository.toRepo 0) []
  have h1 := newRuleBasedFraudDetector_default_fallback (NewInMemoryFraudDataRepository.toRepo 0)
    [highAmountRule]
  refine ⟨?_, ?_, h0.2.2.2 []⟩
  · rw [h0.2.1 rfl]
  · rw [h1.2.2.1 (by simp)]

/-- Claim C5: a missing or mistyped field read by a default rule (`amount`,
`origin`, `customer_id`) never crashes or aborts evaluation: the affected rule
is simply not triggered, and when all three fields are absent the whole check
still completes normally with an approve decision. -/
theorem checkTransaction_missing_fields_not_applicable
    (repo : FraudDataRepository) (data : EventData) :
    (data.getNum "amount" = none → evalRuleTriggered repo highAmountRule data = Except.ok false)
    ∧ (data.getStr "origin" = none → evalRuleTriggered repo suspiciousIpRule data = Except.ok false)
    ∧ (data.getStr "customer_id" = none →
        evalRuleTriggered repo highVelocityRule data = Except.ok false)
    ∧ (data.getNum "amount" = none → data.getStr "origin" = none →
        data.getStr "customer_id" = none →
        RuleBasedFraudDetector.CheckTransaction ⟨repo, DefaultRules⟩ data
          = (⟨0, "approve", []⟩, none)) := by
  refine ⟨?_, ?_, ?_, ?_⟩
  · intro h
    rw [evalRuleTriggered_highAmount]
    simp [highAmountPredicate, h]
  · intro h
    simp only [evalRuleTriggered_suspiciousIp, h]
  · intro h
    simp only [evalRuleTriggered_highVelocity, h]
  · intro h1 h2 h3
    have e1 : evalRuleTriggered repo highAmountRule data = Except.ok false := by
      rw [evalRuleTriggered_highAmount]
      simp [highAmountPredicate, h1]
    have e2 : evalRuleTriggered repo suspiciousIpRule data = Except.ok false := by
      simp only [evalRuleTriggered_suspiciousIp, h2]
    have e3 : evalRuleTriggered repo highVelocityRule data = Except.ok false := by
      simp only [evalRuleTriggered_highVelocity, h3]
    have hE1 : highAmountRule.Enabled = true := rfl
    have hE2 : suspiciousIpRule.Enabled = true := rfl
    have hE3 : highVelocityRule.Enabled = true := rfl
    simp only [RuleBasedFraudDetector.CheckTransaction, DefaultRules, checkLoop,
      hE1, hE2, hE3, e1, e2, e3]
    decide

/-- Witness for C5: a mistyped `amount` and absent `origin`/`customer_id`. -/
theorem checkTransaction_missing_fields_not_applicable_witness :
    EventData.getNum [("amount", GoVal.vStr "x")] "amount" = none
    ∧ RuleBasedFraudDetector.CheckTransaction
        ⟨NewInMemoryFraudDataRepository.toRepo 0, DefaultRules⟩ [("amount", GoVal.vStr "x")]
      = (⟨0, "approve", []⟩, none) := by
  have h := checkTransaction_missing_fields_not_applicable
    (NewInMemoryFraudDataRepository.toRepo 0) [("amount", GoVal.vStr "x")]
  exact ⟨by decide, h.2.2.2 (by decide) (by decide) (by decide)⟩

/-- A rule whose hint is not `"deny"` and whose evaluation succeeds always
hands control to the rest of the catalog (in some accumulator state). -/
theorem checkLoop_cons_progress (repo : FraudDataRepository) (data : EventData)
    (rule : FraudRule) (rest : List FraudRule) (dec : String) (rs : List String) (s : Rat)
    (hnd : rule.Decision ≠ "deny") (b : Bool)
    (hok : evalRuleTriggered repo rule data = Except.ok b) :
    ∃ dec2 rs2 s2, checkLoop repo data (rule :: rest) dec rs s
      = checkLoop repo data rest dec2 rs2 s2 := by
  by_cases hen : rule.Enabled = false
  · exact ⟨dec, rs, s, by simp only [checkLoop, hen, if_true]⟩
  · cases b with
    | false => exact ⟨dec, rs, s, by simp [checkLoop, hen, hok]⟩
    | true =>
      by_cases hf : rule.Decision = "flag" ∧ dec ≠ "deny"
      · exact ⟨"flag", rs ++ [rule.Description], s + rule.ScoreImpact,
          by simp [checkLoop, hen, hok, hnd, hf]⟩
      · exact ⟨dec, rs ++ [rule.Description], s + rule.ScoreImpact,
          by simp [checkLoop, hen, hok, hnd, hf]⟩

/-- An enabled rule whose evaluation fails aborts the loop with that error,
whatever the accumulator state. -/
theorem checkLoop_cons_error (repo : FraudDataRepository) (data : EventData)
    (rule : FraudRule) (rest : List FraudRule) (dec : String) (rs : List String) (s : Rat)
    (hen : rule.Enabled = true) (e : String)
    (herr : evalRuleTriggered repo rule data = Except.error e) :
    checkLoop repo data (rule :: rest) dec rs s = LoopOut.errored e := by
  simp only [checkLoop, hen, herr]
  simp

/-- Claim C6: with the default catalog, `CheckTransaction` fails only when a
required repository fetch fails (history or IP data); the fetch error reaches
the caller wrapped with the id of the offending rule, and the decision returned
alongside any error is the zero value (no score, no decision string, no
reasons). An in-memory repository customer with no records yields an empty
history, never an error. -/
theorem checkTransaction_fetch_failure_semantics
    (repo : FraudDataRepository) (data : EventData) :
    ((∀ cid lb, ∃ hist, repo.GetTransactionHistory cid lb = Except.ok hist) →
     (∀ ip, ∃ d, repo.GetIPData ip = Except.ok d) →
     (RuleBasedFraudDetector.CheckTransaction ⟨repo, DefaultRules⟩ data).2 = none)
    ∧ (∀ (rules : List FraudRule) (e : String),
        (RuleBasedFraudDetector.CheckTransaction ⟨repo, rules⟩ data).2 = some e →
        (RuleBasedFraudDetector.CheckTransaction ⟨repo, rules⟩ data).1 = ⟨0, "", []⟩)
    ∧ (∀ cid e, data.getStr "customer_id" = some cid →
        repo.GetTransactionHistory cid hours24 = Except.error e →
        (∀ ip, ∃ d, repo.GetIPData ip = Except.ok d) →
        RuleBasedFraudDetector.CheckTransaction ⟨repo, DefaultRules⟩ data
          = (⟨0, "", []⟩,
             some ("failed to get transaction history for rule HIGH_VELOCITY_CUSTOMER: " ++ e)))
    ∧ (∀ o e, data.getStr "origin" = some o →
        repo.GetIPData o = Except.error e →
        RuleBasedFraudDetector.CheckTransaction ⟨repo, DefaultRules⟩ data
          = (⟨0, "", []⟩,
             some ("failed to get IP data for rule SUSPICIOUS_IP_ORIGIN: " ++ e)))
    ∧ (∀ (r : InMemoryFraudDataRepository) (now : Int) (cid : String) (lb : Int),
        lookupList r.transactions cid = none →
        r.GetTransactionHistory now cid lb = Except.ok []) := by
  have hb1 : ∀ _ : Unit, ∃ b, evalRuleTriggered repo highAmountRule data = Except.ok b := by
    intro _
    cases h : data.getNum "amount" with
    | none => exact ⟨false, by simp [evalRuleTriggered_highAmount, highAmountPredicate, h]⟩
    | some a =>
      exact ⟨decide (a > 1000), by simp [evalRuleTriggered_highAmount, highAmountPredicate, h]⟩
  refine ⟨?_, ?_, ?_, ?_, ?_⟩
  · intro hth hip
    have n1 : ∀ e, evalRuleTriggered repo highAmountRule data ≠ Except.error e := by
      intro e he
      obtain ⟨b, hb⟩ := hb1 ()
      rw [hb] at he
      exact Except.noConfusion he
    have n2 : ∀ e, evalRuleTriggered repo suspiciousIpRule data ≠ Except.error e := by
      intro e
      cases h : data.getStr "origin" with
      | none => simp [evalRuleTriggered_suspiciousIp, h]
      | some o =>
        obtain ⟨d, hd⟩ := hip o
        simp [evalRuleTriggered_suspiciousIp, h, hd]
    have n3 : ∀ e, evalRuleTriggered repo highVelocityRule data ≠ Except.error e := by
      intro e
      cases h : data.getStr "customer_id" with
      | none => simp [evalRuleTriggered_highVelocity, h]
      | some cid =>
        obtain ⟨hist, hh⟩ := hth cid hours24
        simp [evalRuleTriggered_highVelocity, h, hh]
    have hall : ∀ rule ∈ DefaultRules, ∀ e, evalRuleTriggered repo rule data ≠ Except.error e := by
      intro rule hr
      simp only [DefaultRules, List.mem_cons, List.not_mem_nil, or_false] at hr
      rcases hr with rfl | rfl | rfl
      exacts [n1, n2, n3]
    have hne := checkLoop_no_error repo data DefaultRules hall
    cases hL : checkLoop repo data DefaultRules "approve" [] 0 with
    | errored e => exact absurd hL (hne "approve" [] 0 e)
    | broke d rr sc => simp only [RuleBasedFraudDetector.CheckTransaction, hL]
    | done d rr sc => simp only [RuleBasedFraudDetector.CheckTransaction, hL]
  · intro rules e h
    cases hL : checkLoop repo data rules "approve" [] 0 with
    | errored e2 => simp only [RuleBasedFraudDetector.CheckTransaction, hL]
    | broke d rr sc =>
      simp only [RuleBasedFraudDetector.CheckTransaction, hL] at h
      exact Option.noConfusion h
    | done d rr sc =>
      simp only [RuleBasedFraudDetector.CheckTransaction, hL] at h
      exact Option.noConfusion h
  · intro cid e hcid herr hip
    obtain ⟨b1, hbb1⟩ := hb1 ()
    have hex2 : ∃ b, evalRuleTriggered repo suspiciousIpRule data = Except.ok b := by
      cases h : data.getStr "origin" with
      | none => exact ⟨false, by simp [evalRuleTriggered_suspiciousIp, h]⟩
      | some o =>
        obtain ⟨d, hd⟩ := hip o
        exact ⟨ipIsVpn d || o == "suspicious_ip",
          by simp [evalRuleTriggered_suspiciousIp, h, hd]⟩
    obtain ⟨b2, hbb2⟩ := hex2
    have herr3 : evalRuleTriggered repo highVelocityRule data
        = Except.error ("failed to get transaction history for rule HIGH_VELOCITY_CUSTOMER: " ++ e) := by
      simp only [evalRuleTriggered_highVelocity, hcid, herr]
    obtain ⟨d1, r1s, s1, h1⟩ := checkLoop_cons_progress repo data highAmountRule
      [suspiciousIpRule, highVelocityRule] "approve" [] 0 (by decide) b1 hbb1
    obtain ⟨d2, r2s, s2, h2⟩ := checkLoop_cons_progress repo data suspiciousIpRule
      [highVelocityRule] d1 r1s s1 (by decide) b2 hbb2
    have h3 := checkLoop_cons_error repo data highVelocityRule [] d2 r2s s2 rfl _ herr3
    have hfinal : checkLoop repo data DefaultRules "approve" [] 0
        = LoopOut.errored
            ("failed to get transaction history for rule HIGH_VELOCITY_CUSTOMER: " ++ e) :=
      h1.trans (h2.trans h3)
    simp only [RuleBasedFraudDetector.CheckTransaction, hfinal]
  · intro o e ho herr
    obtain ⟨b1, hbb1⟩ := hb1 ()
    have herr2 : evalRuleTriggered repo suspiciousIpRule data
        = Except.error ("failed to get IP data for rule SUSPICIOUS_IP_ORIGIN: " ++ e) := by
      simp only [evalRuleTriggered_suspiciousIp, ho, herr]
    obtain ⟨d1, r1s, s1, h1⟩ := checkLoop_cons_progress repo data highAmountRule
      [suspiciousIpRule, highVelocityRule] "approve" [] 0 (by decide) b1 hbb1
    have h2 := checkLoop_cons_error repo data suspiciousIpRule [highVelocityRule] d1 r1s s1
      rfl _ herr2
    have hfinal : checkLoop repo data DefaultRules "approve" [] 0
        = LoopOut.errored ("failed to get IP data for rule SUSPICIOUS_IP_ORIGIN: " ++ e) :=
      h1.trans h2
    simp only [RuleBasedFraudDetector.CheckTransaction, hfinal]
  · intro r now cid lb h
    simp [InMemoryFraudDataRepository.GetTransactionHistory, h]

/-- Witness for C6: a repository whose IP lookup fails makes the check fail
with the wrapped rule id and the zero decision, and an empty in-memory
repository returns an empty history for an unknown customer. -/
theorem checkTransaction_fetch_failure_semantics_witness :
    RuleBasedFraudDetector.CheckTransaction
        ⟨⟨fun _ _ => Except.ok [], fun _ => Except.error "ip backend down",
          fun _ => Except.ok none⟩, DefaultRules⟩
        [("origin", GoVal.vStr "1.2.3.4")]
      = (⟨0, "", []⟩, some "failed to get IP data for rule SUSPICIOUS_IP_ORIGIN: ip backend down")
    ∧ InMemoryFraudDataRepository.GetTransactionHistory ⟨[], [], []⟩ 0 "c9" 5
      = Except.ok [] := by
  have h := checkTransaction_fetch_failure_semantics
    ⟨fun _ _ => Except.ok [], fun _ => Except.error "ip backend down", fun _ => Except.ok none⟩
    [("origin", GoVal.vStr "1.2.3.4")]
  exact ⟨h.2.2.2.1 "1.2.3.4" "ip backend down" rfl rfl, h.2.2.2.2 ⟨[], [], []⟩ 0 "c9" 5 rfl⟩

/-- Claim C9: the `/risk/evaluate` service operation returns the constant
response score 0.1, decision `"approve"`, for every request and every service
state — it consults neither the rule engine nor the data provider. -/
theorem fraudService_evaluate_constant (s1 s2 : FraudService)
    (req1 req2 : RiskEvaluateRequest) :
    FraudService.Evaluate s1 req1 = { Score := 1 / 10, Decision := "approve" }
    ∧ FraudService.Evaluate s1 req1 = FraudService.Evaluate s2 req2 :=
  ⟨rfl, rfl⟩

/-- Claim C4: `ValidatePaymentLink` never returns a hard error: its error
component is `none` on every input, and each malformed-input condition (parse
failure, missing parameters, bad merchant id, bad amount, any authority fetch
failure) yields a normal suspicious result. -/
theorem validatePaymentLink_no_hard_error (s : FraudService)
    (authority : String → AuthorityResponse) (parsedLink : URLParseOutcome) :
    (s.ValidatePaymentLink authority parsedLink).2.2 = none
    ∧ (parsedLink = URLParseOutcome.parseError →
        s.ValidatePaymentLink authority parsedLink
          = (true, "Invalid payment link URL format", none))
    ∧ (∀ q, parsedLink = URLParseOutcome.parsed q →
        (queryGet q "ref" = "" ∨ queryGet q "merchant_id" = "" ∨ queryGet q "amount" = ""
          ∨ queryGet q "currency" = "") →
        s.ValidatePaymentLink authority parsedLink
          = (true, "Missing required parameters in payment link (ref, merchant_id, amount, currency)",
             none))
    ∧ (∀ q, parsedLink = URLParseOutcome.parsed q →
        ¬(queryGet q "ref" = "" ∨ queryGet q "merchant_id" = "" ∨ queryGet q "amount" = ""
          ∨ queryGet q "currency" = "") →
        parseGoInt64 (queryGet q "merchant_id") = none →
        s.ValidatePaymentLink authority parsedLink
          = (true, "Invalid merchant_id format in payment link", none))
    ∧ (∀ q mid, parsedLink = URLParseOutcome.parsed q →
        ¬(queryGet q "ref" = "" ∨ queryGet q "merchant_id" = "" ∨ queryGet q "amount" = ""
          ∨ queryGet q "currency" = "") →
        parseGoInt64 (queryGet q "merchant_id") = some mid →
        parseGoInt64 (queryGet q "amount") = none →
        s.ValidatePaymentLink authority parsedLink
          = (true, "Invalid amount format in payment link", none))
    ∧ (∀ q mid amt e, parsedLink = URLParseOutcome.parsed q →
        ¬(queryGet q "ref" = "" ∨ queryGet q "merchant_id" = "" ∨ queryGet q "amount" = ""
          ∨ queryGet q "currency" = "") →
        parseGoInt64 (queryGet q "merchant_id") = some mid →
        parseGoInt64 (queryGet q "amount") = some amt →
        GetTransactionDetailsByReference authority s.transactionServiceURL (queryGet q "ref")
          = Except.error e →
        (s.ValidatePaymentLink authority parsedLink).1 = true) := by
  refine ⟨?_, ?_, ?_, ?_, ?_, ?_⟩
  · cases parsedLink with
    | parseError => rfl
    | parsed q =>
      simp only [FraudService.ValidatePaymentLink]
      repeat (first | rfl | split)
  · intro h
    subst h
    rfl
  · intro q h hm
    subst h
    simp only [FraudService.ValidatePaymentLink]
    rw [if_pos hm]
  · intro q h hnm hmid
    subst h
    simp only [FraudService.ValidatePaymentLink, hmid]
    rw [if_neg hnm]
  · intro q mid h hnm hmid hamt
    subst h
    simp only [FraudService.ValidatePaymentLink, hmid, hamt]
    rw [if_neg hnm]
  · intro q mid amt e h hnm hmid hamt herr
    subst h
    simp only [FraudService.ValidatePaymentLink, hmid, hamt, herr]
    rw [if_neg hnm]
    split <;> rfl

/-- Witness for the conditional branches of C4 at a concrete link and authority. -/
theorem validatePaymentLink_no_hard_error_witness :
    FraudService.ValidatePaymentLink
        ⟨⟨NewInMemoryFraudDataRepository.toRepo 0, DefaultRules⟩, "http://transaction-service:7000"⟩
        (fun _ => AuthorityResponse.transportError "connection refused")
        (URLParseOutcome.parsed
          [("ref", "tx1"), ("merchant_id", "abc"), ("amount", "1000"), ("currency", "NGN")])
      = (true, "Invalid merchant_id format in payment link", none)
    ∧ (FraudService.ValidatePaymentLink
        ⟨⟨NewInMemoryFraudDataRepository.toRepo 0, DefaultRules⟩, "http://transaction-service:7000"⟩
        (fun _ => AuthorityResponse.transportError "connection refused")
        (URLParseOutcome.parsed
          [("ref", "tx1"), ("merchant_id", "5"), ("amount", "1000"), ("currency", "NGN")])).1
      = true := by
  have h := validatePaymentLink_no_hard_error
    ⟨⟨NewInMemoryFraudDataRepository.toRepo 0, DefaultRules⟩, "http://transaction-service:7000"⟩
    (fun _ => AuthorityResponse.transportError "connection refused")
    (URLParseOutcome.parsed
      [("ref", "tx1"), ("merchant_id", "abc"), ("amount", "1000"), ("currency", "NGN")])
  have h2 := validatePaymentLink_no_hard_error
    ⟨⟨NewInMemoryFraudDataRepository.toRepo 0, DefaultRules⟩, "http://transaction-service:7000"⟩
    (fun _ => AuthorityResponse.transportError "connection refused")
    (URLParseOutcome.parsed
      [("ref", "tx1"), ("merchant_id", "5"), ("amount", "1000"), ("currency", "NGN")])
  refine ⟨h.2.2.2.1 _ rfl (by decide) (by decide), ?_⟩
  exact h2.2.2.2.2.2 _ 5 1000 "failed to get transaction from transaction service: connection refused"
    rfl (by decide) (by decide) (by decide) rfl

/-- Claim C7: a link that parses but lacks any of the required query
parameters `ref`, `merchant_id`, `amount`, `currency` is reported suspicious
with the missing-required-parameters reason, and the result is the same for
every transaction authority — the authority is never consulted. -/
theorem validatePaymentLink_missing_param_no_fetch
    (s : FraudService) (q : List (String × String))
    (h : queryGet q "ref" = "" ∨ queryGet q "merchant_id" = "" ∨ queryGet q "amount" = ""
      ∨ queryGet q "currency" = "") :
    ∀ authority authority2,
      s.ValidatePaymentLink authority (URLParseOutcome.parsed q)
        = (true, "Missing required parameters in payment link (ref, merchant_id, amount, currency)",
           none)
      ∧ s.ValidatePaymentLink authority (URLParseOutcome.parsed q)
        = s.ValidatePaymentLink authority2 (URLParseOutcome.parsed q) := by
  intro authority authority2
  have hone : ∀ a, FraudService.ValidatePaymentLink s a (URLParseOutcome.parsed q)
      = (true, "Missing required parameters in payment link (ref, merchant_id, amount, currency)",
         none) := by
    intro a
    simp only [FraudService.ValidatePaymentLink]
    rw [if_pos h]
  exact ⟨hone authority, (hone authority).trans (hone authority2).symm⟩

/-- Witness for C7: a link missing `amount`, under two different authorities. -/
theorem validatePaymentLink_missing_param_no_fetch_witness :
    FraudService.ValidatePaymentLink
        ⟨⟨NewInMemoryFraudDataRepository.toRepo 0, DefaultRules⟩, "http://transaction-service:7000"⟩
        (fun _ => AuthorityResponse.notFound)
        (URLParseOutcome.parsed [("ref", "tx1"), ("merchant_id", "5"), ("currency", "NGN")])
      = (true, "Missing required parameters in payment link (ref, merchant_id, amount, currency)",
         none)
    ∧ FraudService.ValidatePaymentLink
        ⟨⟨NewInMemoryFraudDataRepository.toRepo 0, DefaultRules⟩, "http://transaction-service:7000"⟩
        (fun _ => AuthorityResponse.notFound)
        (URLParseOutcome.parsed [("ref", "tx1"), ("merchant_id", "5"), ("currency", "NGN")])
      = FraudService.ValidatePaymentLink
          ⟨⟨NewInMemoryFraudDataRepository.toRepo 0, DefaultRules⟩, "http://transaction-service:7000"⟩
          (fun _ => AuthorityResponse.success ⟨1, "tx1", 5, "e@x.com", 7, 1000, "NGN", "success"⟩)
          (URLParseOutcome.parsed [("ref", "tx1"), ("merchant_id", "5"), ("currency", "NGN")]) :=
  validatePaymentLink_missing_param_no_fetch
    ⟨⟨NewInMemoryFraudDataRepository.toRepo 0, DefaultRules⟩, "http://transaction-service:7000"⟩
    [("ref", "tx1"), ("merchant_id", "5"), ("currency", "NGN")]
    (Or.inr (Or.inr (Or.inl rfl)))
    (fun _ => AuthorityResponse.notFound)
    (fun _ => AuthorityResponse.success ⟨1, "tx1", 5, "e@x.com", 7, 1000, "NGN", "success"⟩)

/-- Claim C3: once the required parameters parse and the authoritative
transaction is fetched, the validator cross-checks merchant id, then amount,
then currency, short-circuiting at the first mismatch with a reason carrying
both the link value and the authoritative value; if all checks pass it returns
not-suspicious with the legitimate-link reason. -/
theorem validatePaymentLink_crosscheck
    (s : FraudService) (authority : String → AuthorityResponse)
    (q : List (String × String)) (mid amt : Int) (tx : TransactionResponse)
    (hnm : ¬(queryGet q "ref" = "" ∨ queryGet q "merchant_id" = "" ∨ queryGet q "amount" = ""
      ∨ queryGet q "currency" = ""))
    (hmid : parseGoInt64 (queryGet q "merchant_id") = some mid)
    (hamt : parseGoInt64 (queryGet q "amount") = some amt)
    (hfetch : GetTransactionDetailsByReference authority s.transactionServiceURL (queryGet q "ref")
      = Except.ok tx) :
    s.ValidatePaymentLink authority (URLParseOutcome.parsed q)
      = if tx.MerchantID ≠ mid then
          (true, "Merchant ID mismatch: link has " ++ toString mid ++ ", original has "
            ++ toString tx.MerchantID, none)
        else if tx.Amount ≠ amt then
          (true, "Amount mismatch: link has " ++ toString amt ++ ", original has "
            ++ toString tx.Amount, none)
        else if tx.Currency ≠ queryGet q "currency" then
          (true, "Currency mismatch: link has " ++ queryGet q "currency" ++ ", original has "
            ++ tx.Currency, none)
        else (false, "Payment link is legitimate", none) := by
  simp only [FraudService.ValidatePaymentLink, hmid, hamt, hfetch]
  rw [if_neg hnm]

/-- Witness for C3: an all-consistent link validates as legitimate. -/
theorem validatePaymentLink_crosscheck_witness :
    FraudService.ValidatePaymentLink
        ⟨⟨NewInMemoryFraudDataRepository.toRepo 0, DefaultRules⟩, "http://transaction-service:7000"⟩
        (fun _ => AuthorityResponse.success ⟨1, "tx1", 5, "e@x.com", 7, 1000, "NGN", "success"⟩)
        (URLParseOutcome.parsed
          [("ref", "tx1"), ("merchant_id", "5"), ("amount", "1000"), ("currency", "NGN")])
      = (false, "Payment link is legitimate", none) := by
  have h := validatePaymentLink_crosscheck
    ⟨⟨NewInMemoryFraudDataRepository.toRepo 0, DefaultRules⟩, "http://transaction-service:7000"⟩
    (fun _ => AuthorityResponse.success ⟨1, "tx1", 5, "e@x.com", 7, 1000, "NGN", "success"⟩)
    [("ref", "tx1"), ("merchant_id", "5"), ("amount", "1000"), ("currency", "NGN")]
    5 1000 ⟨1, "tx1", 5, "e@x.com", 7, 1000, "NGN", "success"⟩
    (by decide) (by decide) (by decide) rfl
  rw [h]
  decide

end
